import Mathlib

/-!
Verification of the record store and search-ranking engine of
`information_database.py` (class `InformationDatabase`).

The Python code is embedded shallowly:

* a record (`self.data` element, a `dict` with all keys present, as
  `add_entry` creates them) becomes the structure `Entry`;
* the in-memory store `self.data` becomes a `List Entry`;
* mutating methods become pure functions returning `Bool × List Entry`
  (the boolean result of the Python method, and the store after the call);
* `datetime.now().strftime(...)` is passed in as an explicit `now : String`;
* `re.findall` is modelled by `findallCount` (see its doc comment);
* exceptions escaping a method are modelled with `Except String`.

Imported JSON objects (which need not carry every record key) are modelled
separately by `RawEntry`, with one `Option` field per possible key.
-/

deriving instance DecidableEq for Except

namespace InfoDb

/-- Model of Python's `str.lower()` (the inputs under study are ASCII). -/
def pyLower (s : String) : String := ⟨s.data.map Char.toLower⟩

/-- Left part of `str.strip()`: drop leading whitespace. -/
def lstrip (l : List Char) : List Char := l.dropWhile Char.isWhitespace

/-- Right part of `str.strip()`: drop trailing whitespace. -/
def rstrip (l : List Char) : List Char := (l.reverse.dropWhile Char.isWhitespace).reverse

/-- Model of Python's `str.strip()`: drop leading and trailing whitespace. -/
def pyStrip (s : String) : String := ⟨rstrip (lstrip s.data)⟩

/-- Worker for `countOccs`, structurally recursive on a fuel argument so
that the kernel can evaluate it; every step consumes at least one character
of `s`, so any fuel above `s.length` is enough. -/
def countOccsFuel (pat : List Char) : Nat → List Char → Nat
  | 0, _ => 0
  | _ + 1, [] => if pat = [] then 1 else 0
  | fuel + 1, c :: rest =>
    if pat = [] then 1 + countOccsFuel pat fuel rest
    else if pat.isPrefixOf (c :: rest) then
      1 + countOccsFuel pat fuel (rest.drop (pat.length - 1))
    else countOccsFuel pat fuel rest

/-- Number of non-overlapping, leftmost-first occurrences of `pat` in `s`;
this is `len(re.findall(pat, s))` for a pattern free of regex metacharacters
(an empty pattern matches once at every position and once at the end). -/
def countOccs (pat : List Char) (s : List Char) : Nat :=
  countOccsFuel pat (s.length + 1) s

/-- The characters to which Python's `re` module assigns special meaning. -/
def isRegexMeta (c : Char) : Bool :=
  c = '.' || c = '^' || c = '$' || c = '*' || c = '+' || c = '?' ||
  c = '\x7b' || c = '\x7d' || c = '[' || c = ']' || c = '\\' || c = '|' ||
  c = '(' || c = ')'

/-- `true` when the string contains a regex metacharacter. -/
def hasRegexMeta (s : String) : Bool := s.data.any isRegexMeta

/-- Model of Python's `len(re.findall(pat, s))`.  The development reasons only
about the fragment in which this model is faithful: a pattern free of regex
metacharacters is a literal, and Python counts its non-overlapping leftmost
occurrences; a pattern containing metacharacters either uses regex syntax or
raises `re.error`, and the model conservatively reports an error for it, so
theorems about searches that return carry a no-metacharacter hypothesis and
error results are asserted only at patterns — such as `"("` (Python:
`re.error: missing ), unterminated subpattern`) or `"["` (Python:
`re.error: unterminated character set`) — that genuinely raise. -/
def findallCount (pat s : String) : Except String Nat :=
  if hasRegexMeta pat then Except.error "re.error" else Except.ok (countOccs pat.data s.data)

/-- One record of the store: an element of `self.data` carrying every key,
exactly as `add_entry` creates it.  The `metadata` dict is modelled as an
association list whose values are already the `str(value)` the code would
produce. -/
structure Entry where
  id : Nat
  title : String
  content : String
  url : String
  tags : List String
  content_type : String
  metadata : List (String × String)
  searchable_text : String
  created_at : String
  updated_at : String
deriving DecidableEq, Repr

/-- The `searchable_parts` computation shared verbatim by `add_entry`
(applied to the raw arguments) and `update_entry` (applied to the stored
fields): lower-cased title, lower-cased content if its strip is non-empty,
the lower-cased tags whose strip is non-empty, and, when the metadata dict
has a key equal to the content type, that value lower-cased; joined by
`" ".join`. -/
def mkSearchable (title content : String) (tags : List String)
    (content_type : String) (metadata : List (String × String)) : String :=
  String.intercalate " "
    ([pyLower title]
      ++ (if pyStrip content ≠ "" then [pyLower content] else [])
      ++ (tags.filter fun t => decide (pyStrip t ≠ "")).map pyLower
      ++ (match metadata.lookup content_type with
          | some v => [pyLower v]
          | none => []))

/-- The entry dict built by `add_entry` once validation has passed, for a
store currently holding `n` records: `id` is `len(self.data) + 1`, the
string fields are stripped, the blank tags are dropped and the rest
stripped, and `searchable_text` is computed from the *raw* arguments. -/
def mkEntry (n : Nat) (title content url : String) (tags : List String)
    (content_type : String) (metadata : List (String × String)) (now : String) : Entry :=
  { id := n + 1
    title := pyStrip title
    content := pyStrip content
    url := pyStrip url
    tags := (tags.filter fun t => decide (pyStrip t ≠ "")).map pyStrip
    content_type := content_type
    metadata := metadata
    searchable_text := mkSearchable title content tags content_type metadata
    created_at := now
    updated_at := now }

/-- `InformationDatabase.add_entry`: fails when the stripped title is empty,
or when the content type is `"article"` and the stripped content is empty;
otherwise appends the new entry and succeeds. -/
def addEntry (data : List Entry) (title content url : String) (tags : List String)
    (content_type : String) (metadata : List (String × String)) (now : String) :
    Bool × List Entry :=
  if pyStrip title = "" then (false, data)
  else if content_type = "article" ∧ pyStrip content = "" then (false, data)
  else (true, data ++ [mkEntry data.length title content url tags content_type metadata now])

/-- The body of `update_entry`'s loop on the entry whose id matched: each
argument that is `some` overwrites (stripped / filtered like `add_entry`)
the corresponding field, a `none` argument leaves the field unchanged; then
`searchable_text` is recomputed from the *resulting* stored fields and
`updated_at` is restamped.  No validation is performed. -/
def updateOne (e : Entry) (title? content? url? : Option String)
    (tags? : Option (List String)) (content_type? : Option String)
    (metadata? : Option (List (String × String))) (now : String) : Entry :=
  let t := match title? with | some s => pyStrip s | none => e.title
  let c := match content? with | some s => pyStrip s | none => e.content
  let u := match url? with | some s => pyStrip s | none => e.url
  let tg := match tags? with
    | some ts => (ts.filter fun x => decide (pyStrip x ≠ "")).map pyStrip
    | none => e.tags
  let ct := match content_type? with | some s => s | none => e.content_type
  let md := match metadata? with | some m => m | none => e.metadata
  { id := e.id, title := t, content := c, url := u, tags := tg,
    content_type := ct, metadata := md,
    searchable_text := mkSearchable t c tg ct md,
    created_at := e.created_at, updated_at := now }

/-- `InformationDatabase.update_entry`: linear scan for the first entry with
the given id; if found it is updated in place via `updateOne` and the method
returns `True`, otherwise `False`. -/
def updateEntry (data : List Entry) (eid : Nat) (title? content? url? : Option String)
    (tags? : Option (List String)) (content_type? : Option String)
    (metadata? : Option (List (String × String))) (now : String) : Bool × List Entry :=
  match data with
  | [] => (false, [])
  | e :: rest =>
    if e.id = eid then
      (true, updateOne e title? content? url? tags? content_type? metadata? now :: rest)
    else
      let r := updateEntry rest eid title? content? url? tags? content_type? metadata? now
      (r.1, e :: r.2)

/-- `InformationDatabase.delete_entry`: removes the first entry with the
given id, returning `True`; `False` when no entry matches. -/
def deleteEntry (data : List Entry) (eid : Nat) : Bool × List Entry :=
  match data with
  | [] => (false, [])
  | e :: rest =>
    if e.id = eid then (true, rest)
    else
      let r := deleteEntry rest eid
      (r.1, e :: r.2)

/-- Model of Python's substring test `pat in s` on strings. -/
def isSubstr (pat : List Char) : List Char → Bool
  | [] => pat.isEmpty
  | c :: rest => pat.isPrefixOf (c :: rest) || isSubstr pat rest

/-- The pure value of the relevance score the `search` loop computes for one
entry against the lower-cased query `q` (meaningful when the two `re.findall`
calls return): 10 for a title substring hit, 2 per content occurrence, 5 per
tag with a substring hit, 1 per occurrence in `searchable_text`. -/
def scoreVal (q : String) (e : Entry) : Nat :=
  (if isSubstr q.data (pyLower e.title).data then 10 else 0)
    + countOccs q.data (pyLower e.content).data * 2
    + 5 * (e.tags.filter fun t => isSubstr q.data (pyLower t).data).length
    + countOccs q.data e.searchable_text.data

/-- The body of `search`'s scoring loop for one entry: title substring check
(+10), `re.findall` on the lower-cased content (+2 each, may raise), tag
substring checks (+5 each), `re.findall` on `searchable_text` (+1 each). -/
def scoreEntry (q : String) (e : Entry) : Except String Nat := do
  let titleScore := if isSubstr q.data (pyLower e.title).data then 10 else 0
  let contentMatches ← findallCount q (pyLower e.content)
  let tagScore := 5 * (e.tags.filter fun t => isSubstr q.data (pyLower t).data).length
  let textMatches ← findallCount q e.searchable_text
  Except.ok (titleScore + contentMatches * 2 + tagScore + textMatches)

/-- The `results` list `search` accumulates: the `(entry, score)` pairs with
positive score, in store order. -/
def collectScored (q : String) : List Entry → Except String (List (Entry × Nat))
  | [] => Except.ok []
  | e :: rest => do
    let s ← scoreEntry q e
    let tail ← collectScored q rest
    Except.ok (if 0 < s then (e, s) :: tail else tail)

/-- The descending-score order `results.sort(key=lambda x: x[1], reverse=True)`
sorts by. -/
def scoreGe (a b : Entry × Nat) : Prop := b.2 ≤ a.2

instance : DecidableRel scoreGe := fun a b => Nat.decLe b.2 a.2

instance : IsTotal (Entry × Nat) scoreGe := ⟨fun a b => Nat.le_total b.2 a.2⟩

instance : IsTrans (Entry × Nat) scoreGe := ⟨fun _ _ _ hab hbc => Nat.le_trans hbc hab⟩

/-- Python's `list.sort(key=lambda x: x[1], reverse=True)` is a stable sort
by descending score; it is modelled by Mathlib's stable `insertionSort`
under `scoreGe`. -/
def sortResults (l : List (Entry × Nat)) : List (Entry × Nat) :=
  List.insertionSort scoreGe l

/-- `InformationDatabase.search`: a blank query returns `[]` at once;
otherwise the query is lower-cased, every entry is scored (the `re.findall`
calls can raise), the positive-score pairs are sorted stably by descending
score and the entries are returned. -/
def search (data : List Entry) (query : String) : Except String (List Entry) :=
  if pyStrip query = "" then Except.ok []
  else do
    let q := pyLower query
    let results ← collectScored q data
    Except.ok ((sortResults results).map Prod.fst)

/-- A parsed JSON object from an imported array: a dict in which any record
key may be absent (`none`).  `import_from_json` appends such dicts to
`self.data` directly, so for the import operation the store is modelled at
this level. -/
structure RawEntry where
  id : Option Int := none
  title : Option String := none
  content : Option String := none
  url : Option String := none
  tags : Option (List String) := none
  content_type : Option String := none
  metadata : Option (List (String × String)) := none
  searchable_text : Option String := none
  created_at : Option String := none
  updated_at : Option String := none
deriving DecidableEq, Repr

/-- The top-level JSON value parsed from the imported file: either an array
of objects, or anything else (`other`), which `isinstance(imported_data,
list)` rejects. -/
inductive ImportData where
  | list (items : List RawEntry)
  | other
deriving DecidableEq, Repr

/-- The transformation `import_from_json` applies to the imported object at
batch index `i` against a store of `n` records: overwrite `id` with
`n + i + 1`, recompute `searchable_text` as the lower-cased
`f"{title} {content} {join(tags)}"` (tags defaulting to `[]` when absent),
stamp `created_at` only when absent, always restamp `updated_at`. -/
def importStamp (n : Nat) (now : String) (i : Nat) (e : RawEntry) : RawEntry :=
  { e with
    id := some ((n : Int) + (i : Int) + 1)
    searchable_text := some (pyLower
      ((e.title.getD "") ++ " " ++ (e.content.getD "") ++ " "
        ++ String.intercalate " " (e.tags.getD [])))
    created_at := some (e.created_at.getD now)
    updated_at := some now }

/-- The loop of `import_from_json` over the imported array, starting at
batch index `i`: an object lacking a `title` or `content` key makes
`entry['title']` / `entry['content']` raise `KeyError` (modelled as
`Except.error`), which the method's `except` clause later turns into
`False`. -/
def transformItems (n : Nat) (now : String) : Nat → List RawEntry → Except Unit (List RawEntry)
  | _, [] => Except.ok []
  | i, e :: rest =>
    match e.title, e.content with
    | some _, some _ => do
      let rest' ← transformItems n now (i + 1) rest
      Except.ok (importStamp n now i e :: rest')
    | _, _ => Except.error ()

/-- `InformationDatabase.import_from_json`, given the parsed top-level JSON
value: a non-array value returns `False`; otherwise every object of the
array is transformed by the loop, and only after the whole loop finishes is
the batch appended (`self.data.extend`) and `True` returned — an exception
inside the loop reaches the `except` clause, returning `False` with the
store untouched. -/
def importFromJson (data : List RawEntry) (parsed : ImportData) (now : String) :
    Bool × List RawEntry :=
  match parsed with
  | ImportData.other => (false, data)
  | ImportData.list items =>
    match transformItems data.length now 0 items with
    | Except.ok ts => (true, data ++ ts)
    | Except.error _ => (false, data)

/-- The arguments of one `add_entry` call. -/
structure AddReq where
  title : String
  content : String
  url : String
  tags : List String
  content_type : String
  metadata : List (String × String)
  now : String
deriving DecidableEq, Repr

/-- The validation gate of `add_entry`, stated on the arguments alone: the
stripped title is non-empty, and it is not the case that the content type is
`"article"` with an empty stripped content.  `add_entry` succeeds exactly
when this holds, independently of the current store. -/
def addOk (r : AddReq) : Prop :=
  pyStrip r.title ≠ "" ∧ ¬(r.content_type = "article" ∧ pyStrip r.content = "")

instance (r : AddReq) : Decidable (addOk r) := by unfold addOk; infer_instance

/-- The store after a sequence of `add_entry` calls. -/
def runAdds (data : List Entry) : List AddReq → List Entry
  | [] => data
  | r :: rs =>
    runAdds (addEntry data r.title r.content r.url r.tags r.content_type r.metadata r.now).2 rs

/-- Modelled from the spec (§3): the `searchable_text` value re-derived from
a record's *stored* fields by the stated rule — the lower-cased
space-joined concatenation of the title, the content if non-empty, all the
tags, and, if present, the metadata value keyed by the record's own content
type.  This is the spec-side derivation that claim C8 compares with the
stored field. -/
def derivedSearchable (e : Entry) : String :=
  String.intercalate " "
    ([pyLower e.title]
      ++ (if e.content ≠ "" then [pyLower e.content] else [])
      ++ e.tags.map pyLower
      ++ (match e.metadata.lookup e.content_type with
          | some v => [pyLower v]
          | none => []))

/-- The record of the spec's scoring example, as `add_entry` stores it. -/
def rustEntry : Entry :=
  mkEntry 0 "Rust Guide" "rust rust programming" "" ["rust", "systems"] "article" []
    "2024-01-01 10:00:00"

/-- A first plain record (id 1), as created by `add_entry` on an empty store. -/
def entryA : Entry := mkEntry 0 "Alpha" "alpha body" "a.html" [] "article" [] "2024-01-01 10:00:00"

/-- A second plain record (id 2), as created by `add_entry` after `entryA`. -/
def entryB : Entry := mkEntry 1 "Beta" "beta body" "b.html" [] "article" [] "2024-01-01 10:00:01"

/-- An existing store element for the import claims. -/
def rawA : RawEntry :=
  { id := some 1, title := some "Alpha", content := some "alpha body",
    tags := some [], created_at := some "2024-01-01 10:00:00",
    updated_at := some "2024-01-01 10:00:00" }

/-- An imported object carrying its own id and `created_at`. -/
def raw1 : RawEntry :=
  { id := some 99, title := some "One", content := some "first body",
    tags := some ["x", "y"], created_at := some "2020-05-05 05:05:05" }

/-- An imported object with no id and no `created_at`. -/
def raw2 : RawEntry :=
  { title := some "Two", content := some "second body", tags := some [] }

/-- An imported object lacking the `title` key: transforming it raises
`KeyError` in Python. -/
def rawNoTitle : RawEntry := { content := some "only content", tags := some [] }

/-! ### Helper lemmas about `pyStrip` -/

lemma dropWhile_dropWhile (p : α → Bool) (l : List α) :
    (l.dropWhile p).dropWhile p = l.dropWhile p := by
  induction l with
  | nil => rfl
  | cons a l ih =>
    by_cases h : p a
    · simpa [List.dropWhile_cons, h] using ih
    · simp [List.dropWhile_cons, h]

lemma dropWhile_eq_cons_head (p : α → Bool) (l : List α) (c : α) (t : List α)
    (h : l.dropWhile p = c :: t) : p c = false := by
  induction l with
  | nil => simp at h
  | cons a l ih =>
    by_cases ha : p a
    · exact ih (by simpa [List.dropWhile_cons, ha] using h)
    · rw [List.dropWhile_cons_of_neg ha] at h
      cases h
      simpa using ha

lemma dropWhile_append_singleton (p : α → Bool) (c : α) (hc : p c = false) (l : List α) :
    (l ++ [c]).dropWhile p = l.dropWhile p ++ [c] := by
  induction l with
  | nil => simp [List.dropWhile_cons, hc]
  | cons a l ih =>
    by_cases h : p a
    · simpa [List.dropWhile_cons, h] using ih
    · simp [List.dropWhile_cons, h]

lemma lstrip_lstrip (l : List Char) : lstrip (lstrip l) = lstrip l :=
  dropWhile_dropWhile _ _

lemma rstrip_rstrip (l : List Char) : rstrip (rstrip l) = rstrip l := by
  unfold rstrip
  rw [List.reverse_reverse, dropWhile_dropWhile]

lemma rstrip_cons_of_neg (c : Char) (t : List Char) (hc : Char.isWhitespace c = false) :
    rstrip (c :: t) = c :: rstrip t := by
  unfold rstrip
  rw [List.reverse_cons, dropWhile_append_singleton _ _ hc, List.reverse_append]
  rfl

lemma lstrip_rstrip_lstrip (l : List Char) :
    lstrip (rstrip (lstrip l)) = rstrip (lstrip l) := by
  cases hm : lstrip l with
  | nil => rfl
  | cons c t =>
    have hc : Char.isWhitespace c = false := dropWhile_eq_cons_head _ l c t hm
    rw [rstrip_cons_of_neg c t hc]
    exact List.dropWhile_cons_of_neg (by simp [hc])

/-- `str.strip()` is idempotent. -/
theorem pyStrip_idem (s : String) : pyStrip (pyStrip s) = pyStrip s := by
  show (⟨rstrip (lstrip (rstrip (lstrip s.data)))⟩ : String) = ⟨rstrip (lstrip s.data)⟩
  rw [lstrip_rstrip_lstrip, rstrip_rstrip]

/-! ### Helper lemmas about scoring and sorting -/

lemma ok_bind (a : α) (f : α → Except ε β) : (Except.ok a : Except ε α) >>= f = f a := rfl

lemma scoreEntry_eq (q : String) (e : Entry) (h : hasRegexMeta q = false) :
    scoreEntry q e = Except.ok (scoreVal q e) := by
  simp [scoreEntry, findallCount, h, scoreVal, ok_bind]

lemma collectScored_eq (q : String) (h : hasRegexMeta q = false) (data : List Entry) :
    collectScored q data =
      Except.ok ((data.filter fun e => decide (0 < scoreVal q e)).map
        fun e => (e, scoreVal q e)) := by
  induction data with
  | nil => rfl
  | cons e rest ih =>
    by_cases hp : 0 < scoreVal q e
    · simp [collectScored, scoreEntry_eq q e h, ih, List.filter_cons, hp, ok_bind]
    · simp [collectScored, scoreEntry_eq q e h, ih, List.filter_cons, hp, ok_bind]

lemma filter_orderedInsert (s : Nat) (x : Entry × Nat) (l : List (Entry × Nat)) :
    (List.orderedInsert scoreGe x l).filter (fun y => decide (y.2 = s))
      = (if x.2 = s then [x] else []) ++ l.filter (fun y => decide (y.2 = s)) := by
  induction l with
  | nil => by_cases hx : x.2 = s <;> simp [List.orderedInsert, hx]
  | cons y ys ih =>
    by_cases hr : scoreGe x y
    · by_cases hx : x.2 = s <;>
        simp [List.orderedInsert, hr, List.filter_cons, hx]
    · have hlt : x.2 < y.2 := by
        simpa [scoreGe, Nat.not_le] using hr
      by_cases hx : x.2 = s
      · have hy : ¬ y.2 = s := by omega
        simp [List.orderedInsert, hr, List.filter_cons, hx, hy, ih]
      · simp [List.orderedInsert, hr, List.filter_cons, hx, ih]

lemma filter_sortResults (s : Nat) (l : List (Entry × Nat)) :
    (sortResults l).filter (fun y => decide (y.2 = s))
      = l.filter (fun y => decide (y.2 = s)) := by
  unfold sortResults
  induction l with
  | nil => rfl
  | cons x l ih =>
    rw [List.insertionSort, filter_orderedInsert, ih, List.filter_cons]
    by_cases h : x.2 = s <;> simp [h]

/-! ### Helper lemmas about `add_entry`, `update_entry` and the derived index -/

lemma addEntry_of_ok (data : List Entry) (r : AddReq) (h : addOk r) :
    addEntry data r.title r.content r.url r.tags r.content_type r.metadata r.now
      = (true, data ++
          [mkEntry data.length r.title r.content r.url r.tags r.content_type r.metadata r.now]) := by
  obtain ⟨h1, h2⟩ := h
  unfold addEntry
  rw [if_neg h1, if_neg h2]

lemma addEntry_success_shape (data : List Entry) (title content url : String)
    (tags : List String) (ct : String) (md : List (String × String)) (now : String)
    (h : (addEntry data title content url tags ct md now).1 = true) :
    pyStrip title ≠ "" ∧
    addEntry data title content url tags ct md now
      = (true, data ++ [mkEntry data.length title content url tags ct md now]) := by
  by_cases h1 : pyStrip title = ""
  · rw [addEntry, if_pos h1] at h
    simp at h
  · by_cases h2 : ct = "article" ∧ pyStrip content = ""
    · rw [addEntry, if_neg h1, if_pos h2] at h
      simp at h
    · exact ⟨h1, by rw [addEntry, if_neg h1, if_neg h2]⟩

lemma runAdds_map_id (reqs : List AddReq) :
    ∀ data : List Entry, (∀ r ∈ reqs, addOk r) →
    (runAdds data reqs).map Entry.id
      = data.map Entry.id ++ List.range' (data.length + 1) reqs.length := by
  induction reqs with
  | nil => intro data _; simp [runAdds]
  | cons r rs ih =>
    intro data h
    rw [runAdds, addEntry_of_ok data r (h r (by simp))]
    rw [ih _ (fun x hx => h x (by simp [hx]))]
    simp only [List.length_cons, List.range'_succ]
    simp [mkEntry]

lemma mkSearchable_eq_derived (e : Entry)
    (hc : pyStrip e.content = e.content) (ht : ∀ t ∈ e.tags, pyStrip t ≠ "") :
    mkSearchable e.title e.content e.tags e.content_type e.metadata = derivedSearchable e := by
  unfold mkSearchable derivedSearchable
  rw [hc]
  rw [List.filter_eq_self.mpr (fun t htm => by simpa using ht t htm)]

lemma updateOne_content_canonical (e : Entry) (t? c? u? : Option String)
    (tg? : Option (List String)) (ct? : Option String)
    (md? : Option (List (String × String))) (now : String)
    (hc : pyStrip e.content = e.content) :
    pyStrip (updateOne e t? c? u? tg? ct? md? now).content
      = (updateOne e t? c? u? tg? ct? md? now).content := by
  cases c? with
  | none => simpa [updateOne] using hc
  | some s => simp [updateOne, pyStrip_idem]

lemma updateOne_tags_canonical (e : Entry) (t? c? u? : Option String)
    (tg? : Option (List String)) (ct? : Option String)
    (md? : Option (List (String × String))) (now : String)
    (ht : ∀ t ∈ e.tags, pyStrip t ≠ "") :
    ∀ t ∈ (updateOne e t? c? u? tg? ct? md? now).tags, pyStrip t ≠ "" := by
  cases tg? with
  | none => simpa [updateOne] using ht
  | some ts =>
    intro t htm
    simp only [updateOne, List.mem_map, List.mem_filter] at htm
    obtain ⟨x, ⟨_, hx⟩, rfl⟩ := htm
    rw [pyStrip_idem]
    simpa using hx

lemma updateOne_searchable (e : Entry) (t? c? u? : Option String)
    (tg? : Option (List String)) (ct? : Option String)
    (md? : Option (List (String × String))) (now : String) :
    (updateOne e t? c? u? tg? ct? md? now).searchable_text
      = mkSearchable (updateOne e t? c? u? tg? ct? md? now).title
          (updateOne e t? c? u? tg? ct? md? now).content
          (updateOne e t? c? u? tg? ct? md? now).tags
          (updateOne e t? c? u? tg? ct? md? now).content_type
          (updateOne e t? c? u? tg? ct? md? now).metadata := by
  rfl

/-! ### Helper lemmas about `import_from_json` -/

lemma transformItems_eq (n : Nat) (now : String) (items : List RawEntry) :
    ∀ i, (∀ e ∈ items, e.title.isSome ∧ e.content.isSome) →
    transformItems n now i items
      = Except.ok ((items.enumFrom i).map fun p => importStamp n now p.1 p.2) := by
  induction items with
  | nil => intro i _; rfl
  | cons e rest ih =>
    intro i h
    obtain ⟨ht, hc⟩ := h e (by simp)
    obtain ⟨t, ht'⟩ := Option.isSome_iff_exists.mp ht
    obtain ⟨c, hc'⟩ := Option.isSome_iff_exists.mp hc
    rw [transformItems, ht', hc']
    rw [ih (i + 1) (fun x hx => h x (by simp [hx]))]
    simp [ok_bind]

lemma transformItems_error (n : Nat) (now : String) (items : List RawEntry) :
    ∀ i, (∃ e ∈ items, e.title = none ∨ e.content = none) →
    transformItems n now i items = Except.error () := by
  induction items with
  | nil => intro i h; simp at h
  | cons e rest ih =>
    intro i h
    obtain ⟨x, hx, hbad⟩ := h
    rcases List.mem_cons.mp hx with rfl | hx'
    · rcases hbad with hb | hb
      · rw [transformItems, hb]
      · rw [transformItems, hb]
        cases x.title <;> rfl
    · cases ht : e.title with
      | none => rw [transformItems, ht]
      | some t =>
        cases hc : e.content with
        | none => rw [transformItems, ht, hc]
        | some c =>
          rw [transformItems, ht, hc, ih (i + 1) ⟨x, hx', hbad⟩]
          rfl

/-! ### Claim theorems -/

/-- C4: for every store state, `add` with a whitespace-only (blank) title
returns false, and `add` with content type `"article"` and whitespace-only
content returns false, both leaving the collection unchanged; `add` with a
non-blank title, empty content and content type `"link"` succeeds and
appends exactly one record. -/
theorem add_validation_gate (data : List Entry) (title content url : String)
    (tags : List String) (content_type : String) (metadata : List (String × String))
    (now : String) :
    (pyStrip title = "" →
      addEntry data title content url tags content_type metadata now = (false, data))
    ∧ (content_type = "article" → pyStrip content = "" →
      addEntry data title content url tags content_type metadata now = (false, data))
    ∧ (pyStrip title ≠ "" →
      ∃ e, addEntry data title "" url tags "link" metadata now = (true, data ++ [e])) := by
  refine ⟨fun h1 => ?_, fun hct hc => ?_, fun h1 => ?_⟩
  · rw [addEntry, if_pos h1]
  · by_cases h1 : pyStrip title = ""
    · rw [addEntry, if_pos h1]
    · rw [addEntry, if_neg h1, if_pos ⟨hct, hc⟩]
  · refine ⟨mkEntry data.length title "" url tags "link" metadata now, ?_⟩
    rw [addEntry, if_neg h1, if_neg (by simp)]

/-- C4 witness: the three cases of the gate at concrete inputs. -/
theorem add_validation_gate_witness :
    addEntry [] "   " "x" "u" [] "article" [] "2024-01-01 10:00:00" = (false, [])
    ∧ addEntry [] "T" "  " "u" [] "article" [] "2024-01-01 10:00:00" = (false, [])
    ∧ ∃ e, addEntry [] "T" "" "u" [] "link" [] "2024-01-01 10:00:00" = (true, [] ++ [e]) :=
  ⟨(add_validation_gate [] "   " "x" "u" [] "article" [] "2024-01-01 10:00:00").1 (by decide),
   (add_validation_gate [] "T" "  " "u" [] "article" [] "2024-01-01 10:00:00").2.1 rfl (by decide),
   (add_validation_gate [] "T" "" "u" [] "link" [] "2024-01-01 10:00:00").2.2 (by decide)⟩

/-- C5: a successful `add` appends one record whose id is the previous
collection size plus one, and a sequence of successful `add` calls with no
intervening deletes therefore assigns the consecutive ids
`size+1, size+2, ...`, which are pairwise distinct. -/
theorem add_assigns_sequential_ids (data : List Entry) (reqs : List AddReq)
    (h : ∀ r ∈ reqs, addOk r) :
    (∀ (d : List Entry) (r : AddReq),
        (addEntry d r.title r.content r.url r.tags r.content_type r.metadata r.now).1 = true →
        ∃ e, (addEntry d r.title r.content r.url r.tags r.content_type r.metadata r.now).2
              = d ++ [e] ∧ e.id = d.length + 1)
    ∧ (runAdds data reqs).map Entry.id
        = data.map Entry.id ++ List.range' (data.length + 1) reqs.length
    ∧ (List.range' (data.length + 1) reqs.length).Nodup := by
  refine ⟨fun d r hr => ?_, runAdds_map_id reqs data h,
    List.nodup_range' (data.length + 1) reqs.length⟩
  obtain ⟨-, heq⟩ := addEntry_success_shape d r.title r.content r.url r.tags r.content_type
    r.metadata r.now hr
  exact ⟨mkEntry d.length r.title r.content r.url r.tags r.content_type r.metadata r.now,
    by rw [heq], rfl⟩

/-- C5 witness: two successful adds on a store of one record get ids 2, 3. -/
theorem add_assigns_sequential_ids_witness :
    (∀ (d : List Entry) (r : AddReq),
        (addEntry d r.title r.content r.url r.tags r.content_type r.metadata r.now).1 = true →
        ∃ e, (addEntry d r.title r.content r.url r.tags r.content_type r.metadata r.now).2
              = d ++ [e] ∧ e.id = d.length + 1)
    ∧ (runAdds [entryA]
          [⟨"Beta", "beta body", "b.html", [], "article", [], "2024-01-01 10:00:01"⟩,
           ⟨"Gamma", "gamma body", "c.html", [], "article", [], "2024-01-01 10:00:02"⟩]).map
        Entry.id
        = ([entryA] : List Entry).map Entry.id ++ List.range' (([entryA] : List Entry).length + 1) 2
    ∧ (List.range' (([entryA] : List Entry).length + 1) 2).Nodup :=
  add_assigns_sequential_ids [entryA]
    [⟨"Beta", "beta body", "b.html", [], "article", [], "2024-01-01 10:00:01"⟩,
     ⟨"Gamma", "gamma body", "c.html", [], "article", [], "2024-01-01 10:00:02"⟩]
    (by decide)

/-- C6: deleting a record and then adding a new one can duplicate the id of
a still-existing record: on the store `[entryA, entryB]` (ids 1 and 2),
deleting id 1 and then adding succeeds and assigns the new record id 2,
which `entryB` — still in the store — already carries. -/
theorem id_reuse_after_delete :
    entryB.id = 2
    ∧ deleteEntry [entryA, entryB] 1 = (true, [entryB])
    ∧ addEntry [entryB] "Gamma" "gamma body" "c.html" [] "article" [] "2024-01-01 10:00:02"
        = (true, [entryB,
            mkEntry 1 "Gamma" "gamma body" "c.html" [] "article" [] "2024-01-01 10:00:02"])
    ∧ (mkEntry 1 "Gamma" "gamma body" "c.html" [] "article" [] "2024-01-01 10:00:02").id
        = entryB.id := by
  exact ⟨rfl, by decide, by decide, rfl⟩

/-- C7 counterexample: `update_entry` performs no validation, so updating
`entryA` with the blank title `"   "` returns `True` while leaving the
record with an empty title — refuting the claim that the title is non-empty
after every successful update. -/
theorem update_blank_title_succeeds :
    (updateEntry [entryA] 1 (some "   ") none none none none none
        "2024-01-02 10:00:00").1 = true
    ∧ ∃ e, (updateEntry [entryA] 1 (some "   ") none none none none none
        "2024-01-02 10:00:00").2 = [e] ∧ e.title = "" :=
  ⟨by decide,
   ⟨updateOne entryA (some "   ") none none none none none "2024-01-02 10:00:00",
    by decide, by decide⟩⟩

/-- C7 amended: after every successful `add` the record's title is
non-empty; `update` stores the stripped title argument without validation —
the title is therefore non-empty after an update exactly when the title
argument is omitted (the old title is kept) or strips to a non-empty
string. -/
theorem title_nonempty_add_guarded_update :
    (∀ (data : List Entry) (title content url : String) (tags : List String)
        (ct : String) (md : List (String × String)) (now : String),
      (addEntry data title content url tags ct md now).1 = true →
      ∃ e, (addEntry data title content url tags ct md now).2 = data ++ [e] ∧ e.title ≠ "")
    ∧ (∀ (e : Entry) (t : String) (c? u? : Option String) (tg? : Option (List String))
        (ct? : Option String) (md? : Option (List (String × String))) (now : String),
      (updateOne e (some t) c? u? tg? ct? md? now).title = pyStrip t)
    ∧ (∀ (e : Entry) (c? u? : Option String) (tg? : Option (List String))
        (ct? : Option String) (md? : Option (List (String × String))) (now : String),
      (updateOne e none c? u? tg? ct? md? now).title = e.title) := by
  refine ⟨fun data title content url tags ct md now h => ?_, fun _ _ _ _ _ _ _ _ => rfl,
    fun _ _ _ _ _ _ _ => rfl⟩
  obtain ⟨h1, heq⟩ := addEntry_success_shape data title content url tags ct md now h
  exact ⟨mkEntry data.length title content url tags ct md now, by rw [heq], h1⟩

/-- C7 amended witness: a successful add has a non-empty title, and the two
update cases evaluated at `entryA`. -/
theorem title_nonempty_add_guarded_update_witness :
    (∃ e, (addEntry [] "Alpha" "alpha body" "a.html" [] "article" []
        "2024-01-01 10:00:00").2 = [] ++ [e] ∧ e.title ≠ "")
    ∧ (updateOne entryA (some " New ") none none none none none
        "2024-01-02 10:00:00").title = pyStrip " New "
    ∧ (updateOne entryA none none none none none none
        "2024-01-02 10:00:00").title = entryA.title :=
  ⟨title_nonempty_add_guarded_update.1 [] "Alpha" "alpha body" "a.html" [] "article" []
      "2024-01-01 10:00:00" (by decide),
   title_nonempty_add_guarded_update.2.1 entryA " New " none none none none none
      "2024-01-02 10:00:00",
   title_nonempty_add_guarded_update.2.2 entryA none none none none none
      "2024-01-02 10:00:00"⟩

/-- C8 counterexample: `add_entry` computes `searchable_text` from the raw
(untrimmed) arguments while storing the trimmed fields, so a successful add
with the title `" Raw Title "` stores a `searchable_text` that differs from
the value re-derived from the record's stored fields by the stated rule. -/
theorem add_searchable_uses_raw_inputs :
    addEntry [] " Raw Title " "body" "u.html" [] "article" [] "2024-01-01 10:00:00"
      = (true, [mkEntry 0 " Raw Title " "body" "u.html" [] "article" [] "2024-01-01 10:00:00"])
    ∧ (mkEntry 0 " Raw Title " "body" "u.html" [] "article" [] "2024-01-01 10:00:00").searchable_text
        ≠ derivedSearchable
            (mkEntry 0 " Raw Title " "body" "u.html" [] "article" [] "2024-01-01 10:00:00") := by
  exact ⟨by decide, by decide⟩

/-- C8 amended: the stored `searchable_text` equals the value re-derived
from the record's stored fields by the stated rule after every `add` whose
title, content and tags are already trimmed, and after every update of a
record whose stored content is trimmed and whose stored tags are non-blank
(which add and update themselves guarantee); for an untrimmed `add`
argument the stored text keeps the raw spelling and the equality fails. -/
theorem searchable_text_consistency :
    (∀ (n : Nat) (title content url : String) (tags : List String) (ct : String)
        (md : List (String × String)) (now : String),
      pyStrip title = title → pyStrip content = content → (∀ t ∈ tags, pyStrip t = t) →
      (mkEntry n title content url tags ct md now).searchable_text
        = derivedSearchable (mkEntry n title content url tags ct md now))
    ∧ (∀ (e : Entry) (t? c? u? : Option String) (tg? : Option (List String))
        (ct? : Option String) (md? : Option (List (String × String))) (now : String),
      pyStrip e.content = e.content → (∀ t ∈ e.tags, pyStrip t ≠ "") →
      (updateOne e t? c? u? tg? ct? md? now).searchable_text
        = derivedSearchable (updateOne e t? c? u? tg? ct? md? now)) := by
  constructor
  · intro n title content url tags ct md now h1 h2 h3
    have htags : (tags.filter fun t => decide (pyStrip t ≠ "")).map pyStrip
        = tags.filter fun t => decide (pyStrip t ≠ "") := by
      rw [List.map_congr_left fun t htm => h3 t (List.mem_filter.mp htm).1]
      exact List.map_id _
    show mkSearchable title content tags ct md = _
    unfold derivedSearchable mkSearchable mkEntry
    simp only [htags, h1, h2]
  · intro e t? c? u? tg? ct? md? now hc ht
    rw [updateOne_searchable]
    exact mkSearchable_eq_derived _
      (updateOne_content_canonical e t? c? u? tg? ct? md? now hc)
      (updateOne_tags_canonical e t? c? u? tg? ct? md? now ht)

/-- C8 amended witness: the equality evaluated after a trimmed add and
after an update of `entryA`. -/
theorem searchable_text_consistency_witness :
    (mkEntry 0 "Rust Guide" "rust rust programming" "" ["rust", "systems"] "article" []
        "2024-01-01 10:00:00").searchable_text
      = derivedSearchable (mkEntry 0 "Rust Guide" "rust rust programming" ""
          ["rust", "systems"] "article" [] "2024-01-01 10:00:00")
    ∧ (updateOne entryA (some " New ") (some "fresh body") none (some ["tag one"]) none none
        "2024-01-02 10:00:00").searchable_text
      = derivedSearchable (updateOne entryA (some " New ") (some "fresh body") none
          (some ["tag one"]) none none "2024-01-02 10:00:00") :=
  ⟨searchable_text_consistency.1 0 "Rust Guide" "rust rust programming" ""
      ["rust", "systems"] "article" [] "2024-01-01 10:00:00" (by decide) (by decide) (by decide),
   searchable_text_consistency.2 entryA (some " New ") (some "fresh body") none
      (some ["tag one"]) none none "2024-01-02 10:00:00" (by decide) (by decide)⟩

/-- C1: for every record and every non-blank query `q` (lower-cased once,
and within the literal fragment the regex model covers), the score `search`
computes is 10 for a substring hit in the lower-cased title, plus 2 per
match of `q` in the lower-cased content, plus 5 per tag whose lower-cased
form contains `q`, plus 1 per match of `q` in `searchable_text`; in
particular the spec's example record scores exactly 23 for `"rust"`. -/
theorem score_formula_and_example :
    (∀ (e : Entry) (query : String), pyStrip query ≠ "" →
      hasRegexMeta (pyLower query) = false →
      scoreEntry (pyLower query) e = Except.ok (
        (if isSubstr (pyLower query).data (pyLower e.title).data then 10 else 0)
        + 2 * countOccs (pyLower query).data (pyLower e.content).data
        + 5 * (e.tags.filter fun t => isSubstr (pyLower query).data (pyLower t).data).length
        + 1 * countOccs (pyLower query).data e.searchable_text.data))
    ∧ scoreEntry (pyLower "rust") rustEntry = Except.ok 23 := by
  constructor
  · intro e query _ hm
    rw [scoreEntry_eq _ _ hm, scoreVal]
    exact congrArg Except.ok (by ring)
  · decide

/-- C1 witness: the formula and the example instantiated at the spec's
record and the query `"rust"`. -/
theorem score_formula_and_example_witness :
    pyStrip "rust" ≠ ""
    ∧ hasRegexMeta (pyLower "rust") = false
    ∧ scoreEntry (pyLower "rust") rustEntry = Except.ok (
        (if isSubstr (pyLower "rust").data (pyLower rustEntry.title).data then 10 else 0)
        + 2 * countOccs (pyLower "rust").data (pyLower rustEntry.content).data
        + 5 * (rustEntry.tags.filter fun t =>
            isSubstr (pyLower "rust").data (pyLower t).data).length
        + 1 * countOccs (pyLower "rust").data rustEntry.searchable_text.data)
    ∧ scoreEntry (pyLower "rust") rustEntry = Except.ok 23 :=
  ⟨by decide, by decide,
   score_formula_and_example.1 rustEntry "rust" (by decide) (by decide),
   score_formula_and_example.2⟩

/-- C3 counterexample: the query is used as a regex pattern unescaped, so on
a non-empty store the query `"("` makes `re.findall` raise `re.error`
(`missing ), unterminated subpattern`), which escapes `search` to the
caller — refuting the claim that search never raises. -/
theorem search_raises_on_invalid_regex :
    search [entryA] "(" = Except.error "re.error" := by decide

/-- C3 amended: `search` returns a result list without raising for every
query string that, lower-cased, contains no regex metacharacter (in
particular every alphanumeric query); a query that is an ill-formed regex
pattern, such as `"("`, raises `re.error` to the caller instead. -/
theorem search_returns_on_literal_queries (data : List Entry) (query : String)
    (hm : hasRegexMeta (pyLower query) = false) :
    ∃ l, search data query = Except.ok l := by
  by_cases hq : pyStrip query = ""
  · exact ⟨[], by rw [search, if_pos hq]⟩
  · refine ⟨(sortResults ((data.filter fun e => decide (0 < scoreVal (pyLower query) e)).map
      fun e => (e, scoreVal (pyLower query) e))).map Prod.fst, ?_⟩
    rw [search, if_neg hq]
    show (collectScored (pyLower query) data >>= fun results =>
      Except.ok ((sortResults results).map Prod.fst)) = _
    rw [collectScored_eq _ hm]
    rfl

/-- C3 amended witness: a literal query on a non-empty store returns. -/
theorem search_returns_on_literal_queries_witness :
    hasRegexMeta (pyLower "alpha") = false
    ∧ ∃ l, search [entryA] "alpha" = Except.ok l :=
  ⟨by decide, search_returns_on_literal_queries [entryA] "alpha" (by decide)⟩

/-- C9: importing a parsed top-level array whose objects all carry `title`,
`content` and `tags` returns true and appends, in array order, each object
transformed by the stamp: id reassigned to `store_size + index + 1`
(incoming ids ignored), `searchable_text` recomputed from title, content
and tags only, `created_at` stamped only when absent, `updated_at` always
restamped; a non-array top-level value returns false. -/
theorem import_array_semantics (data : List RawEntry) (items : List RawEntry) (now : String)
    (h : ∀ e ∈ items, e.title.isSome ∧ e.content.isSome ∧ e.tags.isSome) :
    importFromJson data (ImportData.list items) now
      = (true, data ++ items.enum.map fun p => importStamp data.length now p.1 p.2)
    ∧ importFromJson data ImportData.other now = (false, data) := by
  constructor
  · show (match transformItems data.length now 0 items with
      | Except.ok ts => (true, data ++ ts)
      | Except.error _ => (false, data)) = _
    rw [transformItems_eq data.length now items 0 fun e he => ⟨(h e he).1, (h e he).2.1⟩]
    rfl
  · rfl

/-- C9 witness: importing two objects — one with its own id and
`created_at`, one without — onto a one-record store. -/
theorem import_array_semantics_witness :
    (∀ e ∈ [raw1, raw2], e.title.isSome ∧ e.content.isSome ∧ e.tags.isSome)
    ∧ (importFromJson [rawA] (ImportData.list [raw1, raw2]) "2024-02-02 00:00:00"
        = (true, [rawA] ++ ([raw1, raw2].enum.map fun p =>
            importStamp ([rawA] : List RawEntry).length "2024-02-02 00:00:00" p.1 p.2))
      ∧ importFromJson [rawA] ImportData.other "2024-02-02 00:00:00" = (false, [rawA])) :=
  ⟨by decide,
   import_array_semantics [rawA] [raw1, raw2] "2024-02-02 00:00:00" (by decide)⟩

/-- C10: import is atomic — whenever it returns false (non-array top-level
value, or a failure while transforming an object, e.g. an element lacking a
`title` or `content` key) the store is exactly what it was before the call,
because the batch is appended only after every element has been
transformed; and an element lacking `title` or `content` does make it
return false. -/
theorem import_failure_leaves_store (data : List RawEntry) (j : ImportData) (now : String) :
    ((importFromJson data j now).1 = false → (importFromJson data j now).2 = data)
    ∧ (∀ items, j = ImportData.list items →
        (∃ e ∈ items, e.title = none ∨ e.content = none) →
        (importFromJson data j now).1 = false) := by
  constructor
  · intro h
    cases j with
    | other => rfl
    | list items =>
      show (match transformItems data.length now 0 items with
        | Except.ok ts => (true, data ++ ts)
        | Except.error _ => (false, data)).2 = data
      rcases htr : transformItems data.length now 0 items with u | ts
      · rfl
      · exfalso
        revert h
        show (match transformItems data.length now 0 items with
          | Except.ok ts => (true, data ++ ts)
          | Except.error _ => (false, data)).1 = false → False
        rw [htr]
        simp
  · rintro items rfl hbad
    show (match transformItems data.length now 0 items with
      | Except.ok ts => (true, data ++ ts)
      | Except.error _ => (false, data)).1 = false
    rw [transformItems_error data.length now items 0 hbad]

/-- C10 witness: importing a batch containing an object without a `title`
key fails and leaves the store unchanged. -/
theorem import_failure_leaves_store_witness :
    (importFromJson [rawA] (ImportData.list [raw1, rawNoTitle]) "2024-02-02 00:00:00").1 = false
    ∧ (importFromJson [rawA] (ImportData.list [raw1, rawNoTitle]) "2024-02-02 00:00:00").2
        = [rawA] :=
  ⟨(import_failure_leaves_store [rawA] (ImportData.list [raw1, rawNoTitle])
      "2024-02-02 00:00:00").2 [raw1, rawNoTitle] rfl
      ⟨rawNoTitle, by decide, Or.inl rfl⟩,
   (import_failure_leaves_store [rawA] (ImportData.list [raw1, rawNoTitle])
      "2024-02-02 00:00:00").1
      ((import_failure_leaves_store [rawA] (ImportData.list [raw1, rawNoTitle])
        "2024-02-02 00:00:00").2 [raw1, rawNoTitle] rfl
        ⟨rawNoTitle, by decide, Or.inl rfl⟩)⟩

lemma sortResults_mem_snd (q : String) (pos : List Entry) :
    ∀ p ∈ sortResults (pos.map fun e => (e, scoreVal q e)), p.2 = scoreVal q p.1 := by
  intro p hp
  have hmem : p ∈ pos.map fun e => (e, scoreVal q e) :=
    (List.perm_insertionSort scoreGe _).subset hp
  obtain ⟨e, _, rfl⟩ := List.mem_map.mp hmem
  rfl

lemma map_fst_pair (f : Entry → Nat) (l : List Entry) :
    (l.map fun e => (e, f e)).map Prod.fst = l := by
  induction l with
  | nil => rfl
  | cons e t ih => simpa using ih

lemma sortResults_perm (q : String) (pos : List Entry) :
    ((sortResults (pos.map fun e => (e, scoreVal q e))).map Prod.fst).Perm pos := by
  have h1 := (List.perm_insertionSort scoreGe (pos.map fun e => (e, scoreVal q e))).map Prod.fst
  rw [map_fst_pair] at h1
  exact h1

lemma sortResults_scores_sorted (q : String) (pos : List Entry) :
    (((sortResults (pos.map fun e => (e, scoreVal q e))).map Prod.fst).map
      (scoreVal q)).Sorted (· ≥ ·) := by
  have hsnd := sortResults_mem_snd q pos
  have hs : List.Pairwise scoreGe (sortResults (pos.map fun e => (e, scoreVal q e))) :=
    List.sorted_insertionSort scoreGe _
  have hs2 : List.Pairwise (fun a b : Entry × Nat => scoreVal q b.1 ≤ scoreVal q a.1)
      (sortResults (pos.map fun e => (e, scoreVal q e))) :=
    hs.imp_of_mem fun ha hb hr => by
      rw [← hsnd _ ha, ← hsnd _ hb]
      exact hr
  have h3 : List.Pairwise (fun x y : Entry => scoreVal q y ≤ scoreVal q x)
      ((sortResults (pos.map fun e => (e, scoreVal q e))).map Prod.fst) :=
    List.Pairwise.map Prod.fst (fun a b h => h) hs2
  have h4 : List.Pairwise (fun x y : Nat => y ≤ x)
      (((sortResults (pos.map fun e => (e, scoreVal q e))).map Prod.fst).map (scoreVal q)) :=
    List.Pairwise.map (scoreVal q) (fun a b h => h) h3
  exact h4

lemma sortResults_filter_score (q : String) (data : List Entry) (s : Nat) (hs : 0 < s) :
    ((sortResults ((data.filter fun e => decide (0 < scoreVal q e)).map
        fun e => (e, scoreVal q e))).map Prod.fst).filter
        (fun e => decide (scoreVal q e = s))
      = data.filter fun e => decide (scoreVal q e = s) := by
  have hc1 : ∀ p ∈ sortResults ((data.filter fun e => decide (0 < scoreVal q e)).map
      fun e => (e, scoreVal q e)),
      ((fun e => decide (scoreVal q e = s)) ∘ Prod.fst) p = decide (p.2 = s) := by
    intro p hp
    show decide (scoreVal q p.1 = s) = decide (p.2 = s)
    rw [sortResults_mem_snd q _ p hp]
  rw [List.filter_map, List.filter_congr hc1, filter_sortResults, List.filter_map,
    map_fst_pair]
  have hcomp : ∀ e ∈ data.filter fun e => decide (0 < scoreVal q e),
      ((fun y : Entry × Nat => decide (y.2 = s)) ∘ fun e => (e, scoreVal q e)) e
        = decide (scoreVal q e = s) := fun e _ => rfl
  rw [List.filter_congr hcomp, List.filter_filter]
  refine List.filter_congr ?_
  intro e _
  by_cases h : scoreVal q e = s
  · simp [h, hs]
  · simp [h]

/-- C2 counterexample: `search` does not return a result list for every
query string — on a non-empty store the query `"["` is an ill-formed regex
pattern and `re.findall` raises `re.error` (`unterminated character set`)
instead of returning the positive-score records. -/
theorem search_not_total_over_queries :
    search [entryA] "[" = Except.error "re.error" := by decide

/-- C2 amended: for every collection and every query that is valid as a
pattern (within the literal fragment the regex model covers: no regex
metacharacter after lower-casing), `search` returns exactly the records
with positive score, ordered by descending score with ties in original
collection order; a query consisting only of whitespace returns the empty
sequence; queries forming ill-formed regex patterns raise instead. -/
theorem search_filters_and_orders (data : List Entry) (query : String)
    (hm : hasRegexMeta (pyLower query) = false) :
    ∃ r, search data query = Except.ok r ∧
      ((pyStrip query = "" ∧ r = []) ∨
       (pyStrip query ≠ ""
         ∧ r.Perm (data.filter fun e => decide (0 < scoreVal (pyLower query) e))
         ∧ (r.map (scoreVal (pyLower query))).Sorted (· ≥ ·)
         ∧ ∀ s : Nat, 0 < s →
             r.filter (fun e => decide (scoreVal (pyLower query) e = s))
               = data.filter fun e => decide (scoreVal (pyLower query) e = s))) := by
  by_cases hq : pyStrip query = ""
  · exact ⟨[], by rw [search, if_pos hq], Or.inl ⟨hq, rfl⟩⟩
  · refine ⟨(sortResults ((data.filter fun e =>
        decide (0 < scoreVal (pyLower query) e)).map
        fun e => (e, scoreVal (pyLower query) e))).map Prod.fst,
      ?_, Or.inr ⟨hq, ?_, ?_, ?_⟩⟩
    · rw [search, if_neg hq]
      show (collectScored (pyLower query) data >>= fun results =>
        Except.ok ((sortResults results).map Prod.fst)) = _
      rw [collectScored_eq _ hm]
      rfl
    · exact sortResults_perm (pyLower query) _
    · exact sortResults_scores_sorted (pyLower query) _
    · exact fun s hs => sortResults_filter_score (pyLower query) data s hs

/-- C2 amended witness: the contract evaluated on a one-record store and a
literal query. -/
theorem search_filters_and_orders_witness :
    hasRegexMeta (pyLower "alpha") = false
    ∧ ∃ r, search [entryA] "alpha" = Except.ok r ∧
      ((pyStrip "alpha" = "" ∧ r = []) ∨
       (pyStrip "alpha" ≠ ""
         ∧ r.Perm (([entryA] : List Entry).filter fun e =>
             decide (0 < scoreVal (pyLower "alpha") e))
         ∧ (r.map (scoreVal (pyLower "alpha"))).Sorted (· ≥ ·)
         ∧ ∀ s : Nat, 0 < s →
             r.filter (fun e => decide (scoreVal (pyLower "alpha") e = s))
               = ([entryA] : List Entry).filter fun e =>
                   decide (scoreVal (pyLower "alpha") e = s))) :=
  ⟨by decide, search_filters_and_orders [entryA] "alpha" (by decide)⟩

end InfoDb
